import Mathlib

/-!
Verification of the LocusChats ephemeral zone discovery and session
synchronization protocol, as implemented in `src/App.tsx` (the current
revision) and the revision `src/unnamed/part_012` (which carries the typing
tracker, the sweep timer and the host presence pulse cited by the claims),
with the data model of `src/types.ts` and the constants of the current
constants revision (`src/unnamed/part_007`, the one whose exports match
`src/App.tsx`'s imports).

Conventions of the shallow embedding:
- JavaScript numbers holding epoch milliseconds or counts are modelled as
  `Int`; geographic coordinates and kilometre distances as `ℚ`.
- `Array.prototype.sort` with a numeric comparator (stable in ES2019+) is
  modelled by the stable structural `List.insertionSort`.
- A JS object used as a string-keyed map (`typingUsers`) is modelled as an
  association list `List (String × Int)`; the spread-update
  `{...m, [k]: v}` updates the key in place when present, else appends.
- The external haversine helper `calculateDistance` lives in
  `src/utils/location.ts`, which is not part of the sources; every function
  that consumes it is therefore parametrised by `calcDist`, exactly as the
  source receives it by import. Likewise the SHA-256 primitive behind
  `hashPassword` is the browser's `crypto.subtle.digest`, an external
  collaborator, so it enters as a `hash` parameter.
- React `setState` updaters are modelled as pure functions
  `AppState → AppState`; MQTT publishes are returned as explicit output
  lists where a claim depends on them.
-/

namespace Locus

/-- A latitude/longitude pair (`center` in `src/types.ts`). -/
structure Coord where
  lat : ℚ
  lng : ℚ
deriving DecidableEq

/-- `RoomType = 'public' | 'private'` from `src/types.ts`; `private` is a
Lean keyword, hence the longer constructor names. -/
inductive RoomType where
  | publicRoom
  | privateRoom
deriving DecidableEq

/-- `User` from `src/types.ts`. -/
structure User where
  username : String
  color : String
deriving DecidableEq

/-- `Message` from `src/types.ts`. The claims depend on `id`, `sender` and
`timestamp`; `text` and `isSystem` are kept, the opaque media fields
(`mediaData`, `type`, `systemType`) are dropped as payload-only. -/
structure Message where
  id : String
  sender : String
  text : String
  timestamp : Int
  isSystem : Bool
deriving DecidableEq

/-- `Zone` from `src/types.ts`. -/
structure Zone where
  id : String
  name : String
  type : RoomType
  hostId : String
  passwordHash : Option String
  center : Coord
  createdAt : Int
  expiresAt : Int
  userCount : Int
deriving DecidableEq

/-- `AppState` from `src/types.ts` (the `userFingerprint` field holds the
module constant `FINGERPRINT`). -/
structure AppState where
  currentZone : Option Zone
  currentUser : Option User
  isHost : Bool
  messages : List Message
  isInRange : Bool
  distance : Option ℚ
  timeLeft : Int
  typingUsers : List (String × Int)
  availableRooms : List Zone
  userFingerprint : String
deriving DecidableEq

/-- The tagged envelopes multiplexed over a zone topic (`handleRoomEvent`
switch in `src/unnamed/part_012`, lines 221-279). `unknown` is the
ignore-unrecognized-tag arm (the `switch` has no `default`). -/
inductive Envelope where
  | message (payload : Message)
  | typing (sender : String)
  | presence (sender : String)
  | countSync (count : Int)
  | historyReq (sender : String)
  | historyRes (target : String) (payload : List Message)
  | roomDelete
  | unknown
deriving DecidableEq

/-- One running client: the React state plus the host's
`activeMembersRef` window (a `Set<string>`, modelled as a duplicate-free
list). -/
structure Client where
  state : AppState
  activeMembers : List String
deriving DecidableEq

/-! Constants from the current constants revision (`src/unnamed/part_007`)
and the local constants of `src/unnamed/part_012`. -/

def RADIUS_KM : ℚ := 10

def SESSION_DURATION_MS : Int := 7200000

def TYPING_EXPIRY_MS : Int := 4000

def DISCOVERY_TOPIC : String := "locuschat/v2/discovery"

/-- The per-zone topic string, derived from the zone id exactly as in the
source (template literal in `src/App.tsx`, line 133). -/
def roomTopic (zoneId : String) : String := "locuschat/v2/rooms/" ++ zoneId

/-- `String.prototype.toUpperCase`, written so that it reduces in the
kernel (Lean's own `String.toUpper` is the same map but does not). -/
def toUpperStr (t : String) : String := String.mk (t.data.map Char.toUpper)

/-- The initial `useState` value of `src/App.tsx` (lines 30-41), with the
fingerprint injected. -/
def idleState (fp : String) : AppState :=
  { currentZone := none, currentUser := none, isHost := false, messages := [],
    isInRange := true, distance := none, timeLeft := SESSION_DURATION_MS,
    typingUsers := [], availableRooms := [], userFingerprint := fp }

/-! The history merge (`handleRoomEvent`, case `history_res`:
`src/App.tsx` lines 164-174 and `src/unnamed/part_012` lines 263-273,
textually identical logic). -/

/-- The JS sort comparator `(a, b) => a.timestamp - b.timestamp` as the
ordering it induces. -/
def Message.tsLe (a b : Message) : Prop := a.timestamp ≤ b.timestamp

instance : DecidableRel Message.tsLe :=
  fun a b => inferInstanceAs (Decidable (a.timestamp ≤ b.timestamp))

instance : IsTotal Message Message.tsLe :=
  ⟨fun a b => Int.le_total a.timestamp b.timestamp⟩

instance : IsTrans Message Message.tsLe :=
  ⟨fun _ _ _ h1 h2 => le_trans h1 h2⟩

/-- The `history_res` merge: collect the existing ids, append every
incoming message whose id is not among them (the id set is not extended
while iterating, exactly as `existingIds` in the source is fixed before
the `forEach`), then sort ascending by timestamp. -/
def mergeHistory (existing incoming : List Message) : List Message :=
  let existingIds := existing.map (fun m => m.id)
  let newMessages := existing ++ incoming.filter (fun m => decide (m.id ∉ existingIds))
  List.insertionSort Message.tsLe newMessages

/-! The typing tracker map (`typingUsers: Record<string, number>`),
modelled as an association list in object-key order. -/

/-- The JS spread-update `{...m, [k]: v}`: replace in place when the key is
present, append otherwise. -/
def setTyping (m : List (String × Int)) (k : String) (v : Int) : List (String × Int) :=
  if m.any (fun kv => kv.1 == k) then
    m.map (fun kv => if kv.1 == k then (k, v) else kv)
  else m ++ [(k, v)]

/-- The JS `delete m[k]`. -/
def removeTyping (m : List (String × Int)) (k : String) : List (String × Int) :=
  m.filter (fun kv => decide (kv.1 ≠ k))

/-- Reading `m[k]` (`undefined` when absent). -/
def lookupTyping (m : List (String × Int)) (k : String) : Option Int :=
  (m.find? (fun kv => kv.1 == k)).map (fun kv => kv.2)

/-- The host's `activeMembersRef.current.add(x)` (`Set` semantics). -/
def addMember (members : List String) (x : String) : List String :=
  if x ∈ members then members else members ++ [x]

/-- The state purge performed by `handleExit` in `src/unnamed/part_012`
(lines 368-383): zone, user, messages, host flag, typing map and distance
are all discarded and the countdown is reset. -/
def purgeSession (s : AppState) : AppState :=
  { s with currentZone := none, currentUser := none, messages := [],
           isHost := false, timeLeft := SESSION_DURATION_MS,
           typingUsers := [], distance := none }

/-- `handleRoomEvent` from `src/unnamed/part_012` (lines 221-279), the
revision that carries the `typing` case. Pure-state rendering: the sound
effect and unread counter of the `message` case are UI-only and omitted;
the `history_res` reply of the `history_req` case is returned in the
output list. The `count_sync` guard `prev.currentZone.id ===
stateRef.current.currentZone?.id` collapses to presence of a current zone,
since the model has a single state cell. -/
def handleRoomEvent (now : Int) (e : Envelope) (c : Client) : Client × List Envelope :=
  match e with
  | .message m =>
      if c.state.messages.any (fun m2 => m2.id == m.id) then (c, [])
      else
        ({ c with state := { c.state with
              messages := c.state.messages ++ [m],
              typingUsers := removeTyping c.state.typingUsers m.sender } }, [])
  | .typing sender =>
      if c.state.currentUser.map (fun u => u.username) = some sender then (c, [])
      else
        ({ c with state := { c.state with
              typingUsers := setTyping c.state.typingUsers sender now } }, [])
  | .presence sender =>
      if c.state.isHost then
        ({ c with activeMembers := addMember c.activeMembers sender }, [])
      else (c, [])
  | .countSync n =>
      match c.state.currentZone with
      | some z =>
          ({ c with state := { c.state with currentZone := some { z with userCount := n } } }, [])
      | none => (c, [])
  | .historyReq sender =>
      if 0 < c.state.messages.length then
        (c, [Envelope.historyRes sender c.state.messages])
      else (c, [])
  | .historyRes target payload =>
      if target == c.state.userFingerprint then
        ({ c with state := { c.state with
              messages := mergeHistory c.state.messages payload } }, [])
      else (c, [])
  | .roomDelete =>
      ({ state := purgeSession c.state, activeMembers := [c.state.userFingerprint] }, [])
  | .unknown => (c, [])

/-- The room branch of the MQTT `message` listener (`src/App.tsx` line 213,
`src/unnamed/part_012` line 184): a zone event is handled only when a zone
is current and the arrival topic equals that zone's topic. -/
def dispatchRoom (now : Int) (topic : String) (e : Envelope) (c : Client) :
    Client × List Envelope :=
  match c.state.currentZone with
  | some z => if topic = roomTopic z.id then handleRoomEvent now e c else (c, [])
  | none => (c, [])

/-- The 1-second sweep interval of `src/unnamed/part_012` (lines 112-147):
drop typing entries older than `TYPING_EXPIRY_MS`, drop cached rooms that
are expired or (when a location is known) out of range, and commit the new
state only when something changed. -/
def sweepTick (now : Int) (currentLocation : Option Coord)
    (calcDist : Coord → Coord → ℚ) (s : AppState) : AppState :=
  let newTyping := s.typingUsers.filter (fun kv => decide (now - kv.2 ≤ TYPING_EXPIRY_MS))
  let filteredRooms := s.availableRooms.filter (fun room =>
    if room.expiresAt ≤ now then false
    else
      match currentLocation with
      | some u => decide (calcDist u room.center ≤ RADIUS_KM)
      | none => true)
  if newTyping.length ≠ s.typingUsers.length ∨
      filteredRooms.length ≠ s.availableRooms.length then
    { s with typingUsers := newTyping, availableRooms := filteredRooms }
  else s

/-! The discovery pulse handler (`handleDiscoveryPulse`, `src/App.tsx`
lines 102-129). -/

/-- The JS discovery sort comparator `(a, b) => b.createdAt - a.createdAt`
(newest first) as the ordering it induces. -/
def createdAtGe (a b : Zone) : Prop := b.createdAt ≤ a.createdAt

instance : DecidableRel createdAtGe :=
  fun a b => inferInstanceAs (Decidable (b.createdAt ≤ a.createdAt))

instance : IsTotal Zone createdAtGe :=
  ⟨fun a b => (Int.le_total b.createdAt a.createdAt)⟩

instance : IsTrans Zone createdAtGe :=
  ⟨fun _ _ _ h1 h2 => le_trans h2 h1⟩

/-- `handleDiscoveryPulse` from `src/App.tsx` (lines 102-129): an expired
descriptor is dropped by the early return; otherwise the cached entry with
the same id is removed, the descriptor is re-inserted only when in range
(or when no location is known yet, mirroring `let inRange = true`), and a
pulse for the client's own zone refreshes its member count with
`Math.max(prev.userCount || 1, room.userCount)`. -/
def handleDiscoveryPulse (now : Int) (userLocation : Option Coord)
    (calcDist : Coord → Coord → ℚ) (room : Zone) (s : AppState) : AppState :=
  if room.expiresAt ≤ now then s
  else
    let others := s.availableRooms.filter (fun r => decide (r.id ≠ room.id))
    let inRange : Bool :=
      match userLocation with
      | some u => decide (calcDist u room.center ≤ RADIUS_KM)
      | none => true
    let updatedRooms :=
      if inRange then List.insertionSort createdAtGe (others ++ [room]) else others
    let updatedCurrentZone :=
      match s.currentZone with
      | some z =>
          if z.id = room.id then
            some { z with userCount := max (if z.userCount = 0 then 1 else z.userCount) room.userCount }
          else some z
      | none => none
    { s with availableRooms := updatedRooms, currentZone := updatedCurrentZone }

/-! Session lifecycle: enter, exit, join (`src/App.tsx`). -/

/-- `enterZone` from `src/App.tsx` (lines 345-359): install the zone, a
fresh user (name upper-cased, random color injected as a parameter), an
empty message list, and publish the system-join message, a `history_req`
and a `presence` on the zone topic. -/
def enterZone (fp color : String) (now : Int) (zone : Zone) (username : String)
    (isHost : Bool) (s : AppState) : AppState × List Envelope :=
  ({ s with currentZone := some zone,
            currentUser := some { username := toUpperStr username, color := color },
            isHost := isHost,
            messages := [],
            timeLeft := zone.expiresAt - now },
   [Envelope.message { id := "sys_join_" ++ toString now, sender := toUpperStr username,
                       text := "", timestamp := now, isSystem := true },
    Envelope.historyReq fp,
    Envelope.presence fp])

/-- The state reset inside `handleExit`'s `finalize` in `src/App.tsx`
(line 364): zone, user, messages, host flag and countdown are reset —
and nothing else; in particular `typingUsers` is left untouched. -/
def handleExitState (s : AppState) : AppState :=
  { s with currentZone := none, currentUser := none, messages := [],
           isHost := false, timeLeft := SESSION_DURATION_MS }

/-- `handleExit` from `src/App.tsx` (lines 361-385): when connected and a
zone and user are present, publish the system-leave message; in every case
run `finalize`. The second component is the published leave message, if
any. -/
def handleExit (connected : Bool) (now : Int) (s : AppState) : AppState × Option Message :=
  if connected = true ∧ s.currentZone.isSome ∧ s.currentUser.isSome then
    (handleExitState s,
     some { id := "sys_leave_" ++ toString now,
            sender := (s.currentUser.map (fun u => u.username)).getD "",
            text := "", timestamp := now, isSystem := true })
  else (handleExitState s, none)

/-- `hashPassword` from `src/App.tsx` (lines 262-266): the hex SHA-256 of
the password concatenated with the fixed salt. The SHA-256 primitive is
the external `crypto.subtle.digest`, passed in as `hash`. -/
def hashPassword (hash : String → String) (pwd : String) : String :=
  hash (pwd ++ "locus-salt")

/-- `joinRoom` from `src/App.tsx` (lines 330-343): for a private zone that
carries a digest, recompute the digest of the supplied password (missing
password treated as the empty string, as `password || ''` does) and
compare; mismatch yields Access Denied with no state change (`none`),
otherwise `enterZone` with `isHost = (zone.hostId === FINGERPRINT)`. -/
def joinRoom (hash : String → String) (fp color : String) (now : Int) (zone : Zone)
    (username : String) (password : Option String) (s : AppState) :
    Option (AppState × List Envelope) :=
  match zone.type, zone.passwordHash with
  | RoomType.privateRoom, some digestStored =>
      if hashPassword hash (password.getD "") = digestStored then
        some (enterZone fp color now zone username (zone.hostId == fp) s)
      else none
  | _, _ => some (enterZone fp color now zone username (zone.hostId == fp) s)

/-! The host presence counter (`broadcastHostZone`, `src/App.tsx` lines
223-241, and the pulse interval of `src/unnamed/part_012` lines 281-294). -/

/-- One broadcast: publish the zone descriptor carrying
`userCount = Math.max(1, activeMembers.size)` and a `count_sync` with the
same count, then reset the observation window to the host's own
fingerprint. Result: (published descriptor, published count, new window). -/
def broadcastHostZone (fp : String) (zone : Zone) (members : List String) :
    (Zone × Int) × List String :=
  let currentCount : Int := max 1 (members.length : Int)
  (({ zone with userCount := currentCount }, currentCount), [fp])

/-- What the host's loop reacts to: observing a sender (from a `message`
or `presence` envelope) or a pulse-interval firing. -/
inductive HostEvent where
  | observe (sender : String)
  | pulse

/-- One step of the host loop over (observation window, published
(descriptor, count) pairs). -/
def hostStep (fp : String) (zone : Zone) :
    List String × List (Zone × Int) → HostEvent → List String × List (Zone × Int)
  | (members, outs), HostEvent.observe x => (addMember members x, outs)
  | (members, outs), HostEvent.pulse =>
      ((broadcastHostZone fp zone members).2, outs ++ [(broadcastHostZone fp zone members).1])

/-- Run the host loop from its initial window `new Set([FINGERPRINT])`
(`src/App.tsx` line 53). -/
def hostRun (fp : String) (zone : Zone) (events : List HostEvent) :
    List String × List (Zone × Int) :=
  events.foldl (hostStep fp zone) ([fp], [])

/-! A trace semantics for the session lifecycle, instrumented with the
generation counter the specification postulates. `gen` counts the
`enterZone` transitions; a delivered event carries the ghost generation it
was issued under. The code itself carries no such counter, so `traceStep`
ignores the ghost field — which is exactly what claim C1 is about. -/

/-- External happenings driving one client. -/
inductive TraceEvent where
  | joinEv (now : Int) (zone : Zone) (username : String) (color : String)
  | exitEv (now : Int) (connected : Bool)
  | deliver (now : Int) (topic : String) (e : Envelope) (issuedGen : Nat)

/-- A client together with the ghost session-generation counter. -/
structure Traced where
  client : Client
  gen : Nat
deriving DecidableEq

/-- One trace step: join runs `enterZone` (and bumps the ghost
generation), exit runs `handleExit`, a delivery runs the MQTT listener's
room branch. The `issuedGen` ghost is ignored, as the source ignores it. -/
def traceStep (t : Traced) (ev : TraceEvent) : Traced :=
  match ev with
  | .joinEv now zone username color =>
      { client := { state := (enterZone t.client.state.userFingerprint color now zone
                      username (zone.hostId == t.client.state.userFingerprint)
                      t.client.state).1,
                    activeMembers := t.client.activeMembers },
        gen := t.gen + 1 }
  | .exitEv now connected =>
      { client := { state := (handleExit connected now t.client.state).1,
                    activeMembers := t.client.activeMembers },
        gen := t.gen }
  | .deliver now topic e _issuedGen =>
      { client := (dispatchRoom now topic e t.client).1, gen := t.gen }

/-- Run a whole trace. -/
def runTrace (t : Traced) (evs : List TraceEvent) : Traced :=
  evs.foldl traceStep t

/-! Concrete sample data, used by witnesses and counterexamples. -/

def msgA : Message :=
  { id := "a1", sender := "AVA", text := "hi", timestamp := 100, isSystem := false }

def msgB : Message :=
  { id := "b2", sender := "BEN", text := "yo", timestamp := 200, isSystem := false }

def userAva : User := { username := "AVA", color := "text-blue-400" }

def zoneA : Zone :=
  { id := "zoneA", name := "BUNKER", type := RoomType.publicRoom, hostId := "hostF",
    passwordHash := none, center := { lat := 10, lng := 10 },
    createdAt := 0, expiresAt := 1000, userCount := 1 }

def zoneB : Zone :=
  { id := "zoneB", name := "ATTIC", type := RoomType.publicRoom, hostId := "hostG",
    passwordHash := none, center := { lat := 11, lng := 11 },
    createdAt := 10, expiresAt := 1000, userCount := 1 }

def zoneFresh : Zone :=
  { zoneA with expiresAt := 5000, userCount := 2 }

def zonePriv : Zone :=
  { id := "zoneP", name := "SECRET", type := RoomType.privateRoom, hostId := "fp",
    passwordHash := some ("alocus-salt"), center := { lat := 0, lng := 0 },
    createdAt := 0, expiresAt := 1000, userCount := 1 }

def clientAva : Client :=
  { state := { idleState "fp" with currentZone := some zoneA, currentUser := some userAva },
    activeMembers := ["fp"] }

def clientInB : Client :=
  { state := { idleState "fp" with currentZone := some zoneB, currentUser := some userAva },
    activeMembers := ["fp"] }

def stateWithTimers : AppState :=
  { idleState "fp" with typingUsers := [("OLD", 0), ("NEW", 9000)] }

def stateCachedA : AppState :=
  { idleState "fp" with availableRooms := [zoneA] }

def stateWithTyping : AppState :=
  { idleState "fp" with currentZone := some zoneA, currentUser := some userAva,
                        typingUsers := [("BOB", 5)] }

def zeroDist : Coord → Coord → ℚ := fun _ _ => 0

def coordU : Coord := { lat := 10, lng := 10 }

def dist3 : Coord → Coord → ℚ := fun _ _ => 3

def dist11 : Coord → Coord → ℚ := fun _ _ => 11

def distRadius : Coord → Coord → ℚ := fun _ _ => 10

def hostEventsSample : List HostEvent := [HostEvent.observe "x", HostEvent.pulse]

def startTraced : Traced :=
  { client := { state := idleState "fp", activeMembers := ["fp"] }, gen := 0 }

def rejoinPrefix : List TraceEvent :=
  [TraceEvent.joinEv 0 zoneA "ava" "c",
   TraceEvent.exitEv 1 false,
   TraceEvent.joinEv 2 zoneA "ava" "c"]

/-! Theorems. Everything below is a statement about the definitions above;
claim theorems are marked with their claim id. -/

/-! Basic facts about the merge, shared by several claims. -/

theorem mergeHistory_perm (E I : List Message) :
    (mergeHistory E I).Perm
      (E ++ I.filter (fun m => decide (m.id ∉ E.map (fun x => x.id)))) :=
  List.perm_insertionSort _ _

theorem mergeHistory_sorted (E I : List Message) :
    (mergeHistory E I).Sorted Message.tsLe :=
  List.sorted_insertionSort _ _

theorem mem_of_mem_mergeHistory {E I : List Message} {m : Message}
    (h : m ∈ mergeHistory E I) : m ∈ E ∨ m ∈ I := by
  have hmem := (mergeHistory_perm E I).mem_iff.mp h
  rcases List.mem_append.mp hmem with h1 | h2
  · exact Or.inl h1
  · exact Or.inr (List.mem_filter.mp h2).1

/-- C3: merging the same `history_res` payload a second time is a no-op:
every incoming id is already present after the first merge, so the second
filter keeps nothing, and re-sorting a sorted list returns it unchanged. -/
theorem mergeHistory_idempotent (E I : List Message) :
    mergeHistory (mergeHistory E I) I = mergeHistory E I := by
  have hids : ∀ m ∈ I, m.id ∈ (mergeHistory E I).map (fun x => x.id) := by
    intro m hm
    by_cases hc : m.id ∈ E.map (fun x => x.id)
    · obtain ⟨e, he, heq⟩ := List.mem_map.mp hc
      exact List.mem_map.mpr
        ⟨e, (mergeHistory_perm E I).mem_iff.mpr (List.mem_append.mpr (Or.inl he)), heq⟩
    · have hf : m ∈ I.filter (fun x => decide (x.id ∉ E.map (fun y => y.id))) :=
        List.mem_filter.mpr ⟨hm, by simpa using hc⟩
      exact List.mem_map.mpr
        ⟨m, (mergeHistory_perm E I).mem_iff.mpr (List.mem_append.mpr (Or.inr hf)), rfl⟩
  have hfilter :
      I.filter (fun m => decide (m.id ∉ (mergeHistory E I).map (fun x => x.id))) = [] := by
    rw [List.filter_eq_nil_iff]
    intro a ha
    simpa using hids a ha
  calc mergeHistory (mergeHistory E I) I
      = List.insertionSort Message.tsLe
          (mergeHistory E I ++
            I.filter (fun m => decide (m.id ∉ (mergeHistory E I).map (fun x => x.id)))) := rfl
    _ = List.insertionSort Message.tsLe (mergeHistory E I ++ []) := by rw [hfilter]
    _ = List.insertionSort Message.tsLe (mergeHistory E I) := by rw [List.append_nil]
    _ = mergeHistory E I := List.Sorted.insertionSort_eq (mergeHistory_sorted E I)

/-- Folding the merge over successive `history_res` payloads keeps the
accumulated list sorted, and keeps its timestamps pairwise distinct as
long as the not-yet-consumed payloads stay timestamp-disjoint from it. -/
theorem foldl_mergeHistory_invariant :
    ∀ (ps : List (List Message)) (S : List Message),
      (S ++ ps.flatten).Pairwise (fun a b => a.timestamp ≠ b.timestamp) →
      S.Sorted Message.tsLe →
      (ps.foldl mergeHistory S).Sorted Message.tsLe ∧
        (ps.foldl mergeHistory S).Pairwise (fun a b => a.timestamp ≠ b.timestamp) := by
  intro ps
  induction ps with
  | nil =>
      intro S hpair hsort
      refine ⟨hsort, ?_⟩
      simpa using hpair
  | cons I ps ih =>
      intro S hpair hsort
      have hsymm : ∀ {x y : Message},
          x.timestamp ≠ y.timestamp → y.timestamp ≠ x.timestamp :=
        fun h => h.symm
      have hsub :
          (S ++ (I.filter (fun m => decide (m.id ∉ S.map (fun x => x.id))) ++ ps.flatten)).Sublist
            (S ++ (I ++ ps.flatten)) :=
        List.Sublist.append (List.Sublist.refl S)
          (List.Sublist.append (List.filter_sublist I) (List.Sublist.refl _))
      have hpair2 :
          (S ++ (I.filter (fun m => decide (m.id ∉ S.map (fun x => x.id))) ++ ps.flatten)).Pairwise
            (fun a b => a.timestamp ≠ b.timestamp) := by
        refine List.Pairwise.sublist hsub ?_
        simpa [List.flatten_cons] using hpair
      have hperm :
          (mergeHistory S I ++ ps.flatten).Perm
            (S ++ (I.filter (fun m => decide (m.id ∉ S.map (fun x => x.id))) ++ ps.flatten)) := by
        have h1 := List.Perm.append_right ps.flatten (mergeHistory_perm S I)
        simpa [List.append_assoc] using h1
      have hpair3 :
          (mergeHistory S I ++ ps.flatten).Pairwise
            (fun a b => a.timestamp ≠ b.timestamp) :=
        (List.Perm.pairwise_iff hsymm hperm).mpr hpair2
      have hstep := ih (mergeHistory S I) hpair3 (mergeHistory_sorted S I)
      simpa [List.foldl_cons] using hstep

/-- C4: for messages with pairwise distinct timestamps, delivered across
`history_res` payloads in any decomposition and order, the merged sequence
is sorted strictly ascending by timestamp. -/
theorem mergeHistory_foldl_sorted_ascending (payloads : List (List Message))
    (hdist : payloads.flatten.Pairwise (fun a b => a.timestamp ≠ b.timestamp)) :
    (payloads.foldl mergeHistory []).Pairwise
      (fun a b => a.timestamp < b.timestamp) := by
  obtain ⟨hs, hne⟩ :=
    foldl_mergeHistory_invariant payloads [] (by simpa using hdist) (by simp)
  exact (List.Pairwise.and hs hne).imp (fun h => lt_of_le_of_ne h.1 h.2)

/-- C4 witness: two singleton payloads arriving in reverse timestamp order
are merged into an ascending sequence. -/
theorem mergeHistory_foldl_sorted_ascending_witness :
    ([[msgB], [msgA]] : List (List Message)).flatten.Pairwise
        (fun a b => a.timestamp ≠ b.timestamp) ∧
      (([[msgB], [msgA]] : List (List Message)).foldl mergeHistory []).Pairwise
        (fun a b => a.timestamp < b.timestamp) :=
  ⟨by decide, mergeHistory_foldl_sorted_ascending [[msgB], [msgA]] (by decide)⟩

/-! Lookup lemmas for the typing map. -/

theorem find_setTyping_present (k : String) (v : Int) :
    ∀ (m : List (String × Int)), m.any (fun kv => kv.1 == k) = true →
      (m.map (fun kv => if kv.1 == k then (k, v) else kv)).find?
          (fun kv => kv.1 == k) = some (k, v) := by
  intro m
  induction m with
  | nil => intro h; simp at h
  | cons x m ih =>
      intro h
      by_cases hx : x.1 = k
      · simp [List.find?, hx]
      · have hx2 : (x.1 == k) = false := by simpa using hx
        have htail : m.any (fun kv => kv.1 == k) = true := by
          simpa [List.any_cons, hx2] using h
        simpa [List.find?, hx2] using ih htail

theorem find_setTyping_absent (k : String) (v : Int) :
    ∀ (m : List (String × Int)), m.any (fun kv => kv.1 == k) = false →
      (m ++ [(k, v)]).find? (fun kv => kv.1 == k) = some (k, v) := by
  intro m
  induction m with
  | nil => simp [List.find?]
  | cons x m ih =>
      intro h
      have hx : (x.1 == k) = false := by
        rcases List.any_eq_false.mp h x (by simp) with hx2
        simpa using hx2
      have htail : m.any (fun kv => kv.1 == k) = false := by
        refine List.any_eq_false.mpr ?_
        intro kv hkv
        exact List.any_eq_false.mp h kv (by simp [hkv])
      simpa [List.cons_append, List.find?, hx] using ih htail

theorem lookup_setTyping (m : List (String × Int)) (k : String) (v : Int) :
    lookupTyping (setTyping m k v) k = some v := by
  unfold lookupTyping setTyping
  by_cases h : m.any (fun kv => kv.1 == k) = true
  · rw [if_pos h, find_setTyping_present k v m h]
    rfl
  · have hf : m.any (fun kv => kv.1 == k) = false := Bool.eq_false_iff.mpr h
    rw [if_neg (by simp [hf]), find_setTyping_absent k v m hf]
    rfl

/-- C9: a `typing` envelope from a sender other than the current user
stamps that sender with the current time, and the sweep removes every
typing entry older than `TYPING_EXPIRY_MS`, no matter what else arrived. -/
theorem typing_stamp_and_sweep_expiry (now : Int) (sender : String) (c : Client)
    (loc : Option Coord) (calcDist : Coord → Coord → ℚ) (s : AppState)
    (hself : c.state.currentUser.map (fun u => u.username) ≠ some sender) :
    lookupTyping ((handleRoomEvent now (Envelope.typing sender) c).1.state.typingUsers)
        sender = some now ∧
      ∀ k t, (k, t) ∈ (sweepTick now loc calcDist s).typingUsers →
        now - t ≤ TYPING_EXPIRY_MS := by
  constructor
  · simp only [handleRoomEvent, if_neg hself]
    exact lookup_setTyping c.state.typingUsers sender now
  · intro k t hmem
    unfold sweepTick at hmem
    by_cases hch : (s.typingUsers.filter
          (fun kv => decide (now - kv.2 ≤ TYPING_EXPIRY_MS))).length ≠ s.typingUsers.length ∨
        (s.availableRooms.filter (fun room =>
          if room.expiresAt ≤ now then false
          else
            match loc with
            | some u => decide (calcDist u room.center ≤ RADIUS_KM)
            | none => true)).length ≠ s.availableRooms.length
    · rw [if_pos hch] at hmem
      have := (List.mem_filter.mp hmem).2
      simpa using this
    · rw [if_neg hch] at hmem
      push_neg at hch
      have heq : s.typingUsers.filter
          (fun kv => decide (now - kv.2 ≤ TYPING_EXPIRY_MS)) = s.typingUsers :=
        List.Sublist.eq_of_length (List.filter_sublist _) hch.1
      have hall := List.filter_eq_self.mp heq (k, t) hmem
      simpa using hall

/-- C9 witness: with current user AVA, a typing envelope from BEN stamps
BEN at time 10000; one sweep at the same instant keeps the fresh entry
(age 1000 ms) and, by the theorem, every surviving entry is fresh. -/
theorem typing_stamp_and_sweep_expiry_witness :
    clientAva.state.currentUser.map (fun u => u.username) ≠ some "BEN" ∧
      lookupTyping ((handleRoomEvent 10000 (Envelope.typing "BEN")
          clientAva).1.state.typingUsers) "BEN" = some 10000 ∧
      ("NEW", (9000 : Int)) ∈ (sweepTick 10000 none zeroDist stateWithTimers).typingUsers ∧
      (10000 : Int) - 9000 ≤ TYPING_EXPIRY_MS :=
  ⟨by decide,
   (typing_stamp_and_sweep_expiry 10000 "BEN" clientAva none zeroDist stateWithTimers
      (by decide)).1,
   by decide,
   (typing_stamp_and_sweep_expiry 10000 "BEN" clientAva none zeroDist stateWithTimers
      (by decide)).2 "NEW" 9000 (by decide)⟩

/-- C5: a cached zone whose `expiresAt` has passed is gone from
`availableRooms` after the next sweep tick, with no descriptor or deletion
signal needed. -/
theorem sweepTick_removes_expired_zone (now : Int) (loc : Option Coord)
    (calcDist : Coord → Coord → ℚ) (s : AppState) (room : Zone)
    (hexp : room.expiresAt ≤ now) :
    room ∉ (sweepTick now loc calcDist s).availableRooms := by
  intro hmem
  unfold sweepTick at hmem
  by_cases hch : (s.typingUsers.filter
        (fun kv => decide (now - kv.2 ≤ TYPING_EXPIRY_MS))).length ≠ s.typingUsers.length ∨
      (s.availableRooms.filter (fun room =>
        if room.expiresAt ≤ now then false
        else
          match loc with
          | some u => decide (calcDist u room.center ≤ RADIUS_KM)
          | none => true)).length ≠ s.availableRooms.length
  · rw [if_pos hch] at hmem
    have hpred := (List.mem_filter.mp hmem).2
    rw [if_pos hexp] at hpred
    exact Bool.false_ne_true hpred
  · rw [if_neg hch] at hmem
    push_neg at hch
    have heq : s.availableRooms.filter (fun room =>
        if room.expiresAt ≤ now then false
        else
          match loc with
          | some u => decide (calcDist u room.center ≤ RADIUS_KM)
          | none => true) = s.availableRooms :=
      List.Sublist.eq_of_length (List.filter_sublist _) hch.2
    have hpred := List.filter_eq_self.mp heq room hmem
    rw [if_pos hexp] at hpred
    exact Bool.false_ne_true hpred

/-- C5 witness: `zoneA` (expiry 1000) is cached; after a sweep at time
2000 it is gone, although no descriptor and no deletion signal arrived. -/
theorem sweepTick_removes_expired_zone_witness :
    zoneA ∈ stateCachedA.availableRooms ∧ zoneA.expiresAt ≤ 2000 ∧
      zoneA ∉ (sweepTick 2000 none zeroDist stateCachedA).availableRooms :=
  ⟨by decide, by decide,
   sweepTick_removes_expired_zone 2000 none zeroDist stateCachedA zoneA (by decide)⟩

/-! Discovery pulse lemmas, shared by the range/expiry claims. -/

theorem discovery_expired_noop (now : Int) (loc : Option Coord)
    (calcDist : Coord → Coord → ℚ) (room : Zone) (s : AppState)
    (h : room.expiresAt ≤ now) :
    handleDiscoveryPulse now loc calcDist room s = s := by
  unfold handleDiscoveryPulse
  rw [if_pos h]

theorem discovery_rooms_of_unexpired (now : Int) (u : Coord)
    (calcDist : Coord → Coord → ℚ) (room : Zone) (s : AppState)
    (h1 : now < room.expiresAt) :
    (handleDiscoveryPulse now (some u) calcDist room s).availableRooms =
      if calcDist u room.center ≤ RADIUS_KM then
        List.insertionSort createdAtGe
          (s.availableRooms.filter (fun r => decide (r.id ≠ room.id)) ++ [room])
      else s.availableRooms.filter (fun r => decide (r.id ≠ room.id)) := by
  unfold handleDiscoveryPulse
  rw [if_neg (not_le.mpr h1)]
  by_cases h2 : calcDist u room.center ≤ RADIUS_KM
  · rw [if_pos h2]
    simp [decide_eq_true h2]
  · rw [if_neg h2]
    simp [decide_eq_false h2]

theorem discovery_upsert_of_inRange (now : Int) (u : Coord)
    (calcDist : Coord → Coord → ℚ) (room : Zone) (s : AppState)
    (h1 : now < room.expiresAt) (h2 : calcDist u room.center ≤ RADIUS_KM) :
    room ∈ (handleDiscoveryPulse now (some u) calcDist room s).availableRooms ∧
      ∀ r ∈ (handleDiscoveryPulse now (some u) calcDist room s).availableRooms,
        r.id = room.id → r = room := by
  rw [discovery_rooms_of_unexpired now u calcDist room s h1, if_pos h2]
  constructor
  · exact (List.perm_insertionSort _ _).mem_iff.mpr
      (List.mem_append.mpr (Or.inr (List.mem_singleton.mpr rfl)))
  · intro r hr hid
    rcases List.mem_append.mp ((List.perm_insertionSort _ _).mem_iff.mp hr) with hf | hs
    · exact absurd hid (of_decide_eq_true (List.mem_filter.mp hf).2)
    · exact List.mem_singleton.mp hs

theorem discovery_removes_of_outOfRange (now : Int) (u : Coord)
    (calcDist : Coord → Coord → ℚ) (room : Zone) (s : AppState)
    (h1 : now < room.expiresAt) (h2 : RADIUS_KM < calcDist u room.center) :
    ∀ r ∈ (handleDiscoveryPulse now (some u) calcDist room s).availableRooms,
      r.id ≠ room.id := by
  rw [discovery_rooms_of_unexpired now u calcDist room s h1, if_neg (not_le.mpr h2)]
  intro r hr
  exact of_decide_eq_true (List.mem_filter.mp hr).2

/-- C2 (amended): an unexpired in-range descriptor is upserted by id; an
unexpired out-of-range descriptor removes any cached entry with that id;
an expired descriptor is ignored entirely, leaving any cached entry in
place for the sweep timer to collect. -/
theorem discovery_upsert_or_remove (now : Int) (u : Coord)
    (calcDist : Coord → Coord → ℚ) (room : Zone) (s : AppState) :
    (room.expiresAt ≤ now → handleDiscoveryPulse now (some u) calcDist room s = s) ∧
      (now < room.expiresAt → calcDist u room.center ≤ RADIUS_KM →
        room ∈ (handleDiscoveryPulse now (some u) calcDist room s).availableRooms ∧
          ∀ r ∈ (handleDiscoveryPulse now (some u) calcDist room s).availableRooms,
            r.id = room.id → r = room) ∧
      (now < room.expiresAt → RADIUS_KM < calcDist u room.center →
        ∀ r ∈ (handleDiscoveryPulse now (some u) calcDist room s).availableRooms,
          r.id ≠ room.id) :=
  ⟨fun h => discovery_expired_noop now (some u) calcDist room s h,
   fun h1 h2 => discovery_upsert_of_inRange now u calcDist room s h1 h2,
   fun h1 h2 => discovery_removes_of_outOfRange now u calcDist room s h1 h2⟩

/-- C2 counterexample: the claim demands that an expired descriptor remove
the cached entry for its id; the code's early `return` leaves the entry
untouched — here `zoneA` (expiry 1000) is still cached after its own
expired descriptor arrives at time 2000. -/
theorem discovery_expired_retains_entry :
    zoneA.expiresAt ≤ 2000 ∧
      handleDiscoveryPulse 2000 (some coordU) zeroDist zoneA stateCachedA = stateCachedA ∧
      zoneA ∈ (handleDiscoveryPulse 2000 (some coordU) zeroDist zoneA
          stateCachedA).availableRooms := by
  refine ⟨by decide, by decide, by decide⟩

/-- C2 witness: at time 2000, a fresh in-range descriptor for the cached
id replaces the old entry, and an out-of-range descriptor removes it. -/
theorem discovery_upsert_or_remove_witness :
    (2000 : Int) < zoneFresh.expiresAt ∧
      dist3 coordU zoneFresh.center ≤ RADIUS_KM ∧
      zoneFresh ∈ (handleDiscoveryPulse 2000 (some coordU) dist3 zoneFresh
          stateCachedA).availableRooms ∧
      RADIUS_KM < dist11 coordU zoneFresh.center ∧
      zoneFresh ∉ (handleDiscoveryPulse 2000 (some coordU) dist11 zoneFresh
          stateCachedA).availableRooms :=
  ⟨by decide, by decide,
   ((discovery_upsert_or_remove 2000 coordU dist3 zoneFresh stateCachedA).2.1
      (by decide) (by decide)).1,
   by decide,
   fun hmem =>
     (discovery_upsert_or_remove 2000 coordU dist11 zoneFresh stateCachedA).2.2
       (by decide) (by decide) zoneFresh hmem rfl⟩

/-- C8: the discovery range check is inclusive — a zone at distance
exactly `RADIUS_KM` is inserted, one strictly farther is excluded (and
any stale cached entry with its id is dropped). -/
theorem discovery_radius_boundary (now : Int) (u : Coord)
    (calcDist : Coord → Coord → ℚ) (room : Zone) (s : AppState) :
    (now < room.expiresAt → calcDist u room.center = RADIUS_KM →
        room ∈ (handleDiscoveryPulse now (some u) calcDist room s).availableRooms) ∧
      (now < room.expiresAt → RADIUS_KM < calcDist u room.center →
        ∀ r ∈ (handleDiscoveryPulse now (some u) calcDist room s).availableRooms,
          r.id ≠ room.id) :=
  ⟨fun h1 h2 =>
      (discovery_upsert_of_inRange now u calcDist room s h1 (le_of_eq h2)).1,
   fun h1 h2 => discovery_removes_of_outOfRange now u calcDist room s h1 h2⟩

/-- C8 witness: a zone at exactly 10 km (the radius) is listed; at 11 km
it is not. -/
theorem discovery_radius_boundary_witness :
    (2000 : Int) < zoneFresh.expiresAt ∧
      distRadius coordU zoneFresh.center = RADIUS_KM ∧
      zoneFresh ∈ (handleDiscoveryPulse 2000 (some coordU) distRadius zoneFresh
          stateCachedA).availableRooms ∧
      RADIUS_KM < dist11 coordU zoneFresh.center ∧
      zoneFresh ∉ (handleDiscoveryPulse 2000 (some coordU) dist11 zoneFresh
          stateCachedA).availableRooms :=
  ⟨by decide, by decide,
   (discovery_radius_boundary 2000 coordU distRadius zoneFresh stateCachedA).1
     (by decide) (by decide),
   by decide,
   fun hmem =>
     (discovery_radius_boundary 2000 coordU dist11 zoneFresh stateCachedA).2
       (by decide) (by decide) zoneFresh hmem rfl⟩

/-! Session isolation (C1). -/

theorem roomTopic_inj {a b : String} (h : roomTopic a = roomTopic b) : a = b := by
  have hd := congrArg String.data h
  unfold roomTopic at hd
  rw [String.data_append, String.data_append] at hd
  exact String.ext (List.append_cancel_left hd)

/-- C1 (amended): the code guards stale asynchronous results by topic, not
by a generation counter — an event arriving on the topic of zone `zid` is
ignored whenever the client is Idle or its current zone has a different
id. In particular, after leaving Zone A by exit, or by joining a Zone B
with a different id, a `history_res` addressed under Zone A's session is
never merged. -/
theorem stale_session_event_ignored (now : Int) (zid : String) (e : Envelope)
    (c : Client)
    (h : c.state.currentZone.all (fun z => z.id != zid) = true) :
    dispatchRoom now (roomTopic zid) e c = (c, []) := by
  unfold dispatchRoom
  cases hz : c.state.currentZone with
  | none => rfl
  | some z =>
      rw [hz] at h
      have hne : z.id ≠ zid := by simpa [Option.all] using h
      show (if roomTopic zid = roomTopic z.id then handleRoomEvent now e c else (c, [])) =
        (c, [])
      exact if_neg (fun heq => hne (roomTopic_inj heq).symm)

/-- C1 witness: a client currently in `zoneB` receives a `history_res`
addressed to it on `zoneA`'s topic; nothing happens. -/
theorem stale_session_event_ignored_witness :
    clientInB.state.currentZone.all (fun z => z.id != "zoneA") = true ∧
      dispatchRoom 3 (roomTopic "zoneA") (Envelope.historyRes "fp" [msgA]) clientInB =
        (clientInB, []) :=
  ⟨by decide,
   stale_session_event_ignored 3 "zoneA" (Envelope.historyRes "fp" [msgA]) clientInB
     (by decide)⟩

/-- C1 counterexample: no generation counter exists. The client joins Zone
A (ghost generation 1), exits, rejoins Zone A (generation 2); a
`history_res` issued under generation 1 then arrives on Zone A's topic and
IS merged into the new session's message list, although its generation
(1) no longer matches the current one (2) — the claim's guard would have
discarded it. -/
theorem generation_guard_counterexample :
    (runTrace startTraced rejoinPrefix).gen = 2 ∧
      (1 : Nat) ≠ (runTrace startTraced rejoinPrefix).gen ∧
      (runTrace startTraced rejoinPrefix).client.state.messages = [] ∧
      (traceStep (runTrace startTraced rejoinPrefix)
          (TraceEvent.deliver 3 (roomTopic "zoneA")
            (Envelope.historyRes "fp" [msgA]) 1)).client.state.messages = [msgA] := by
  refine ⟨by decide, by decide, by decide, by decide⟩

/-! Exit (C6). -/

/-- C6 (amended): exit discards the zone, the user, the message list and
the host flag, resets the countdown, and leaves `typingUsers` untouched
(the claim's "discards typingUsers" fails on this revision); it is
idempotent, and the second call publishes no system-leave message. -/
theorem handleExit_idempotent_single_publish (connected c2 : Bool) (now n2 : Int)
    (s : AppState) :
    (handleExit connected now s).1.currentZone = none ∧
      (handleExit connected now s).1.currentUser = none ∧
      (handleExit connected now s).1.messages = [] ∧
      (handleExit connected now s).1.isHost = false ∧
      (handleExit connected now s).1.timeLeft = SESSION_DURATION_MS ∧
      (handleExit connected now s).1.typingUsers = s.typingUsers ∧
      handleExit c2 n2 (handleExit connected now s).1 =
        ((handleExit connected now s).1, none) := by
  have h1 : (handleExit connected now s).1 = handleExitState s := by
    unfold handleExit
    split <;> rfl
  rw [h1]
  refine ⟨rfl, rfl, rfl, rfl, rfl, rfl, ?_⟩
  unfold handleExit
  rw [if_neg]
  · rfl
  · intro hcond
    have : (handleExitState s).currentZone.isSome = true := hcond.2.1
    simp [handleExitState] at this

/-- C6 counterexample: the claim says exit discards `typingUsers` from
memory entirely; `handleExit` of `src/App.tsx` leaves a non-empty typing
map in place (the `part_012` revision does clear it). -/
theorem handleExit_keeps_typing_counterexample :
    stateWithTyping.typingUsers = [("BOB", 5)] ∧
      (handleExit true 0 stateWithTyping).1.typingUsers = [("BOB", 5)] ∧
      ([("BOB", (5 : Int))] : List (String × Int)) ≠ [] := by
  refine ⟨rfl, rfl, by decide⟩

/-! Access control (C7). -/

theorem saltedAppend_inj {a b : String}
    (h : a ++ "locus-salt" = b ++ "locus-salt") : a = b := by
  have hd := congrArg String.data h
  rw [String.data_append, String.data_append] at hd
  exact String.ext (List.append_cancel_right hd)

theorem hashPassword_inj (hash : String → String) (hinj : Function.Injective hash)
    {a b : String} (h : hashPassword hash a = hashPassword hash b) : a = b :=
  saltedAppend_inj (hinj h)

/-- C7: with a collision-free digest primitive, verifying the original
password against its stored digest succeeds and any different password
fails; accordingly `joinRoom` on a private zone yields Access Denied with
no state change for the wrong password, and enters the zone (Active, with
`isHost = (hostId == fingerprint)`) for the right one. -/
theorem join_password_gate (hash : String → String) (hinj : Function.Injective hash)
    (p wrong : String) (hne : wrong ≠ p) (fp color : String) (now : Int)
    (zone : Zone) (username : String) (s : AppState)
    (htype : zone.type = RoomType.privateRoom)
    (hdig : zone.passwordHash = some (hashPassword hash p)) :
    hashPassword hash wrong ≠ hashPassword hash p ∧
      joinRoom hash fp color now zone username (some wrong) s = none ∧
      joinRoom hash fp color now zone username (some p) s =
        some (enterZone fp color now zone username (zone.hostId == fp) s) ∧
      (enterZone fp color now zone username (zone.hostId == fp) s).1.currentZone =
        some zone ∧
      (enterZone fp color now zone username (zone.hostId == fp) s).1.isHost =
        (zone.hostId == fp) := by
  have hwne : hashPassword hash wrong ≠ hashPassword hash p :=
    fun h => hne (hashPassword_inj hash hinj h)
  refine ⟨hwne, ?_, ?_, rfl, rfl⟩
  · unfold joinRoom
    rw [htype, hdig]
    show (if hashPassword hash wrong = hashPassword hash p then
        some (enterZone fp color now zone username (zone.hostId == fp) s)
      else none) = none
    exact if_neg hwne
  · unfold joinRoom
    rw [htype, hdig]
    show (if hashPassword hash p = hashPassword hash p then
        some (enterZone fp color now zone username (zone.hostId == fp) s)
      else none) = some (enterZone fp color now zone username (zone.hostId == fp) s)
    exact if_pos rfl

/-- C7 witness: with the identity as (trivially collision-free) digest
primitive, password "a" opens `zonePriv` and password "b" is denied. -/
theorem join_password_gate_witness :
    ("b" : String) ≠ "a" ∧
      zonePriv.type = RoomType.privateRoom ∧
      zonePriv.passwordHash = some (hashPassword id "a") ∧
      joinRoom id "fp" "col" 0 zonePriv "ben" (some "b") (idleState "fp") = none ∧
      joinRoom id "fp" "col" 0 zonePriv "ben" (some "a") (idleState "fp") =
        some (enterZone "fp" "col" 0 zonePriv "ben" (zonePriv.hostId == "fp")
          (idleState "fp")) :=
  ⟨by decide, rfl, by decide,
   (join_password_gate id (fun _ _ hxy => hxy) "a" "b" (by decide) "fp" "col" 0
      zonePriv "ben" (idleState "fp") rfl (by decide)).2.1,
   (join_password_gate id (fun _ _ hxy => hxy) "a" "b" (by decide) "fp" "col" 0
      zonePriv "ben" (idleState "fp") rfl (by decide)).2.2.1⟩

/-! Host membership counter (C10). -/

theorem hostRun_invariant (fp : String) (zone : Zone) :
    ∀ (events : List HostEvent) (st : List String × List (Zone × Int)),
      fp ∈ st.1 → (∀ d c, (d, c) ∈ st.2 → 1 ≤ d.userCount ∧ 1 ≤ c) →
      fp ∈ (events.foldl (hostStep fp zone) st).1 ∧
        ∀ d c, (d, c) ∈ (events.foldl (hostStep fp zone) st).2 →
          1 ≤ d.userCount ∧ 1 ≤ c := by
  intro events
  induction events with
  | nil => intro st h1 h2; exact ⟨h1, h2⟩
  | cons ev evs ih =>
      rintro ⟨members, outs⟩ h1 h2
      cases ev with
      | observe x =>
          refine ih (addMember members x, outs) ?_ h2
          unfold addMember
          split
          · exact h1
          · exact List.mem_append.mpr (Or.inl h1)
      | pulse =>
          refine ih ((broadcastHostZone fp zone members).2,
            outs ++ [(broadcastHostZone fp zone members).1]) ?_ ?_
          · simp [broadcastHostZone]
          · intro d c hmem
            rcases List.mem_append.mp hmem with hold | hnew
            · exact h2 d c hold
            · have hpair : (d, c) =
                  ({ zone with userCount := max 1 (members.length : Int) },
                    max 1 (members.length : Int)) := by
                simpa [broadcastHostZone] using hnew
              have hd := congrArg Prod.fst hpair
              have hc := congrArg Prod.snd hpair
              simp only at hd hc
              subst hd
              subst hc
              exact ⟨le_max_left 1 _, le_max_left 1 _⟩

/-- C10: every (descriptor, count_sync) pair the host publishes carries a
member count of at least 1, and the observation window always contains the
host's own fingerprint (it starts from and is reset to
`new Set([FINGERPRINT])`). -/
theorem host_published_count_positive (fp : String) (zone : Zone)
    (events : List HostEvent) :
    fp ∈ (hostRun fp zone events).1 ∧
      ∀ d c, (d, c) ∈ (hostRun fp zone events).2 → 1 ≤ d.userCount ∧ 1 ≤ c :=
  hostRun_invariant fp zone events ([fp], []) (by simp) (by intro d c h; simp at h)

/-- C10 witness: after observing one peer and one pulse, the published
pair carries count 2, and the theorem bounds it below by 1. -/
theorem host_published_count_positive_witness :
    ({ zoneA with userCount := 2 }, (2 : Int)) ∈ (hostRun "fp" zoneA hostEventsSample).2 ∧
      1 ≤ ({ zoneA with userCount := 2 } : Zone).userCount ∧ 1 ≤ (2 : Int) :=
  ⟨by decide,
   ((host_published_count_positive "fp" zoneA hostEventsSample).2
      { zoneA with userCount := 2 } 2 (by decide)).1,
   ((host_published_count_positive "fp" zoneA hostEventsSample).2
      { zoneA with userCount := 2 } 2 (by decide)).2⟩

end Locus
